import Mathlib

/-!
Verification of the speech-assistant telephony glue code: the inbound-call
webhook responder (which builds a TwiML call-control document) and the
outbound-call helper script (`call_outgoing.py`).

The responder itself lives in `main.py`, which is not part of the excerpt;
its behaviour is modelled from the specification (section 4.1) and pinned by
the literal strings the test suite asserts.  The outbound helper is embedded
directly from `call_outgoing.py`.
-/

set_option maxRecDepth 8192

namespace SpeechAssistant

/-! ## String-search machinery over lists of characters

Python's `str.find`, `str.count`, `in` and `startswith` are modelled by
executable functions on `List Char`. -/

/-- `startsWithL p s` is true when the pattern `p` is an initial segment of `s`
(Python `s.startswith(p)`). -/
def startsWithL : List Char → List Char → Bool
  | [], _ => true
  | _ :: _, [] => false
  | p :: ps, c :: cs => p == c && startsWithL ps cs

/-- `occAt p s i` is true when an occurrence of `p` starts at index `i` of `s`. -/
def occAt (p s : List Char) (i : Nat) : Bool := startsWithL p (s.drop i)

/-- Number of indices of `s` at which the pattern `p` occurs
(Python `s.count(p)` for non-self-overlapping patterns). -/
def countOcc (p : List Char) : List Char → Nat
  | [] => 0
  | c :: cs => (if startsWithL p (c :: cs) then 1 else 0) + countOcc p cs

/-- Index of the first occurrence of `p` in `s` (Python `s.find(p)`,
with `none` for "not found"). -/
def firstOcc (p : List Char) : List Char → Option Nat
  | [] => none
  | c :: cs => if startsWithL p (c :: cs) then some 0 else (firstOcc p cs).map (· + 1)

/-- `p` occurs somewhere in `s` (Python `p in s`). -/
def containsSub (p s : List Char) : Bool := decide (0 < countOcc p s)

/-- `noTail p s` rules out a partial match of `p` hanging off the end of `s`:
at every suffix of `s` shorter than `p`, the corresponding prefix of `p` does
not match.  This is the side condition under which searching in `s ++ t`
decomposes into searching `s` and searching `t`. -/
def noTail (p : List Char) : List Char → Bool
  | [] => true
  | c :: cs =>
      (decide (p.length ≤ (c :: cs).length) || !startsWithL (p.take (c :: cs).length) (c :: cs))
        && noTail p cs

theorem startsWithL_refl (p : List Char) : startsWithL p p = true := by
  induction p with
  | nil => rfl
  | cons c cs ih => simp [startsWithL, ih]

theorem startsWithL_append_left {p s : List Char} (t : List Char)
    (h : startsWithL p s = true) : startsWithL p (s ++ t) = true := by
  induction p generalizing s with
  | nil => rfl
  | cons q qs ih =>
      cases s with
      | nil => simp [startsWithL] at h
      | cons c cs =>
          simp only [startsWithL, Bool.and_eq_true] at h
          simp only [List.cons_append, startsWithL, Bool.and_eq_true]
          exact ⟨h.1, ih h.2⟩

theorem startsWithL_length_le {p s : List Char}
    (h : startsWithL p s = true) : p.length ≤ s.length := by
  induction p generalizing s with
  | nil => exact Nat.zero_le _
  | cons q qs ih =>
      cases s with
      | nil => simp [startsWithL] at h
      | cons c cs =>
          simp only [startsWithL, Bool.and_eq_true] at h
          simpa [List.length_cons] using Nat.succ_le_succ (ih h.2)

theorem startsWithL_take {p s t : List Char}
    (h : startsWithL p (s ++ t) = true) :
    startsWithL (p.take s.length) s = true := by
  induction s generalizing p with
  | nil => cases p <;> rfl
  | cons c cs ih =>
      cases p with
      | nil => rfl
      | cons q qs =>
          simp only [List.cons_append, startsWithL, Bool.and_eq_true] at h
          simp only [List.length_cons, List.take_succ_cons, startsWithL, Bool.and_eq_true]
          exact ⟨h.1, ih h.2⟩

theorem startsWithL_of_append_of_le {p s t : List Char}
    (h : startsWithL p (s ++ t) = true) (hl : p.length ≤ s.length) :
    startsWithL p s = true := by
  have h2 := startsWithL_take h
  rwa [List.take_of_length_le hl] at h2

/-- Under the `noTail`-style head condition, prepending `s` to anything does not
change whether `p` matches at the start. -/
theorem startsWithL_append_eq {p s b : List Char}
    (hc : p.length ≤ s.length ∨ startsWithL (p.take s.length) s = false) :
    startsWithL p (s ++ b) = startsWithL p s := by
  cases hs : startsWithL p s with
  | true => rw [startsWithL_append_left b hs]
  | false =>
      cases hsb : startsWithL p (s ++ b) with
      | false => rfl
      | true =>
          exfalso
          have ht := startsWithL_take hsb
          rcases hc with hle | hno
          · rw [List.take_of_length_le hle] at ht
            rw [ht] at hs
            exact Bool.noConfusion hs
          · rw [ht] at hno
            exact Bool.noConfusion hno

theorem countOcc_cons (p : List Char) (c : Char) (cs : List Char) :
    countOcc p (c :: cs) = (if startsWithL p (c :: cs) then 1 else 0) + countOcc p cs := rfl

theorem firstOcc_cons (p : List Char) (c : Char) (cs : List Char) :
    firstOcc p (c :: cs) =
      if startsWithL p (c :: cs) then some 0 else (firstOcc p cs).map (· + 1) := rfl

theorem noTail_cons {p c cs} (h : noTail p (c :: cs) = true) :
    (p.length ≤ (c :: cs).length ∨ startsWithL (p.take (c :: cs).length) (c :: cs) = false)
      ∧ noTail p cs = true := by
  simp only [noTail, Bool.and_eq_true, Bool.or_eq_true, decide_eq_true_eq,
    Bool.not_eq_true'] at h
  exact ⟨h.1, h.2⟩

/-- Counting occurrences distributes over append when no match straddles the
boundary. -/
theorem countOcc_append {p : List Char} (a b : List Char)
    (h : noTail p a = true) :
    countOcc p (a ++ b) = countOcc p a + countOcc p b := by
  induction a with
  | nil => simp [countOcc]
  | cons c cs ih =>
      obtain ⟨hc, hcs⟩ := noTail_cons h
      have heq : startsWithL p (c :: (cs ++ b)) = startsWithL p (c :: cs) := by
        have h2 := startsWithL_append_eq (s := c :: cs) (b := b) hc
        rwa [List.cons_append] at h2
      rw [List.cons_append, countOcc_cons, countOcc_cons, heq, ih hcs, Nat.add_assoc]

/-- The first occurrence inside `a` is also the first occurrence in `a ++ b`
when no match straddles the boundary. -/
theorem firstOcc_append_some {p : List Char} (a b : List Char) {i : Nat}
    (h : noTail p a = true) (hi : firstOcc p a = some i) :
    firstOcc p (a ++ b) = some i := by
  induction a generalizing i with
  | nil => simp [firstOcc] at hi
  | cons c cs ih =>
      obtain ⟨hc, hcs⟩ := noTail_cons h
      have heq : startsWithL p (c :: (cs ++ b)) = startsWithL p (c :: cs) := by
        have h2 := startsWithL_append_eq (s := c :: cs) (b := b) hc
        rwa [List.cons_append] at h2
      rw [firstOcc_cons] at hi
      rw [List.cons_append, firstOcc_cons, heq]
      by_cases hs : startsWithL p (c :: cs) = true
      · rw [if_pos hs] at hi
        rw [if_pos hs]
        exact hi
      · rw [if_neg hs] at hi
        rw [if_neg hs]
        rcases hmap : firstOcc p cs with _ | j
        · rw [hmap] at hi
          simp at hi
        · rw [hmap] at hi
          simp only [Option.map_some'] at hi
          rw [ih hcs hmap, Option.map_some']
          exact hi

/-- When `p` does not occur in `a` and no match straddles the boundary, the
first occurrence in `a ++ b` is the first occurrence in `b`, shifted. -/
theorem firstOcc_append_none {p : List Char} (a b : List Char)
    (h : noTail p a = true) (hn : firstOcc p a = none) :
    firstOcc p (a ++ b) = (firstOcc p b).map (· + a.length) := by
  induction a with
  | nil => simp [firstOcc]
  | cons c cs ih =>
      obtain ⟨hc, hcs⟩ := noTail_cons h
      have heq : startsWithL p (c :: (cs ++ b)) = startsWithL p (c :: cs) := by
        have h2 := startsWithL_append_eq (s := c :: cs) (b := b) hc
        rwa [List.cons_append] at h2
      rw [firstOcc_cons] at hn
      rw [List.cons_append, firstOcc_cons, heq]
      by_cases hs : startsWithL p (c :: cs) = true
      · rw [if_pos hs] at hn
        exact absurd hn (by simp)
      · rw [if_neg hs] at hn
        rw [if_neg hs]
        have hn2 : firstOcc p cs = none := by
          rcases hmap : firstOcc p cs with _ | j
          · rfl
          · rw [hmap] at hn
            simp at hn
        rw [ih hcs hn2, Option.map_map]
        rcases firstOcc p b with _ | j
        · rfl
        · rfl

/-- A pattern starting with `'<'` never matches inside a `'<'`-free block, so
searching skips over the block entirely (count form). -/
theorem countOcc_ltfree {p : List Char} (hp : p.head? = some '<')
    (h post : List Char) (hh : ('<' : Char) ∉ h) :
    countOcc p (h ++ post) = countOcc p post := by
  induction h with
  | nil => rfl
  | cons c cs ih =>
      have hc : ('<' : Char) ≠ c := fun he => hh (he ▸ List.mem_cons_self c cs)
      cases p with
      | nil => simp [List.head?] at hp
      | cons q qs =>
          have hq : q = '<' := by simpa [List.head?] using hp
          have hne : (q == c) = false := by
            rw [hq]
            exact beq_eq_false_iff_ne.mpr hc
          have hs : startsWithL (q :: qs) (c :: (cs ++ post)) = false := by
            simp [startsWithL, hne]
          rw [List.cons_append, countOcc_cons, hs]
          simpa using ih (fun hm => hh (List.mem_cons_of_mem c hm))

/-- A pattern starting with `'<'` never matches inside a `'<'`-free block
(first-occurrence form). -/
theorem firstOcc_ltfree {p : List Char} (hp : p.head? = some '<')
    (h post : List Char) (hh : ('<' : Char) ∉ h) :
    firstOcc p (h ++ post) = (firstOcc p post).map (· + h.length) := by
  induction h with
  | nil => simp [firstOcc]
  | cons c cs ih =>
      have hc : ('<' : Char) ≠ c := fun he => hh (he ▸ List.mem_cons_self c cs)
      cases p with
      | nil => simp [List.head?] at hp
      | cons q qs =>
          have hq : q = '<' := by simpa [List.head?] using hp
          have hne : (q == c) = false := by
            rw [hq]
            exact beq_eq_false_iff_ne.mpr hc
          have hs : startsWithL (q :: qs) (c :: (cs ++ post)) = false := by
            simp [startsWithL, hne]
          rw [List.cons_append, firstOcc_cons, hs]
          rw [if_neg (by simp)]
          rw [ih (fun hm => hh (List.mem_cons_of_mem c hm)), Option.map_map]
          rcases firstOcc (q :: qs) post with _ | j
          · rfl
          · rfl

theorem countOcc_append_right_pos {p : List Char} (a : List Char) {b : List Char}
    (h : 0 < countOcc p b) : 0 < countOcc p (a ++ b) := by
  induction a with
  | nil => simpa using h
  | cons c cs ih =>
      simp only [List.cons_append, countOcc]
      exact Nat.lt_of_lt_of_le ih (Nat.le_add_left _ _)

theorem countOcc_self_append_pos {p : List Char} (b : List Char) (hp : p ≠ []) :
    0 < countOcc p (p ++ b) := by
  cases p with
  | nil => exact absurd rfl hp
  | cons c cs =>
      have hs : startsWithL (c :: cs) (c :: (cs ++ b)) = true := by
        have h2 := startsWithL_append_left b (startsWithL_refl (c :: cs))
        rwa [List.cons_append] at h2
      rw [List.cons_append, countOcc_cons, if_pos hs]
      omega

theorem occAt_append_left {p a : List Char} (b : List Char) {i : Nat}
    (h : occAt p a i = true) : occAt p (a ++ b) i = true := by
  cases p with
  | nil => cases hd : (a ++ b).drop i <;> simp [occAt, startsWithL, hd]
  | cons q qs =>
      have hlen : (q :: qs).length ≤ (a.drop i).length := startsWithL_length_le h
      have hi : i ≤ a.length := by
        by_contra hx
        push_neg at hx
        have : a.drop i = [] := List.drop_eq_nil_of_le (Nat.le_of_lt hx)
        rw [this] at hlen
        simp at hlen
      have hdrop : (a ++ b).drop i = a.drop i ++ b := by
        rw [List.drop_append_eq_append_drop, Nat.sub_eq_zero_of_le hi, List.drop_zero]
      unfold occAt
      rw [hdrop]
      exact startsWithL_append_left b h

/-! ## The inbound-call webhook responder

Modelled from the spec: `main.py` (the FastAPI route `GET|POST /incoming-call`)
is not part of the excerpt.  The definitions below follow section 4.1 of the
specification — the responder ignores the request method and body, reads the
`Host` header, and returns HTTP 200 with `Content-Type: application/xml` and a
fixed TwiML document whose only templated field is the WebSocket host.  The
literal announcement text is the one the test suite asserts. -/

/-- Modelled from the spec: the HTTP methods the `/incoming-call` route accepts. -/
inductive Method
  | GET
  | POST
deriving DecidableEq

/-- Modelled from the spec: the request-body shapes the tests exercise
(absent, form-encoded, JSON, malformed raw string). -/
inductive ReqBody
  | absent
  | formEncoded (fields : List (String × String))
  | jsonBody (raw : String)
  | malformed (raw : String)

/-- Modelled from the spec: the parts of an inbound HTTP request the responder
can observe.  `host` is the `Host` header value (the test client defaults it to
`testserver`); `scheme` is the inbound request scheme, which the responder
never reads. -/
structure Request where
  method : Method
  scheme : String
  host : String
  body : ReqBody

/-- An HTTP response: status code, `Content-Type` header, body. -/
structure HttpResponse where
  status : Nat
  contentType : String
  body : String

/-- Modelled from the spec: the media-stream WebSocket endpoint,
`"wss://" + host + "/media-stream"`. -/
def streamEndpoint (host : String) : String :=
  "wss://" ++ host ++ "/media-stream"

/-- Modelled from the spec: the serialized CallControlDocument of section 4.1 —
XML declaration, root, first voice prompt, one-second pause, second voice
prompt, bridge instruction with one stream reference, closing root. -/
def twimlDocument (host : String) : String :=
  "<?xml version=\"1.0\" encoding=\"UTF-8\"?>"
    ++ "<Response>"
    ++ "<Say>Please wait while we connect your call to the A. I. voice assistant.</Say>"
    ++ "<Pause length=\"1\" />"
    ++ "<Say>O. K. you can start talking!</Say>"
    ++ "<Connect>"
    ++ "<Stream url=\"" ++ streamEndpoint host ++ "\" />"
    ++ "</Connect>"
    ++ "</Response>"

/-- Modelled from the spec: the webhook responder.  It ignores method and body,
and always returns 200 / `application/xml` with the document built from the
request's host. -/
def handle_incoming_call (req : Request) : HttpResponse :=
  { status := 200
    contentType := "application/xml"
    body := twimlDocument req.host }

/-- Everything in the generated document before the host value. -/
def preS : String :=
  "<?xml version=\"1.0\" encoding=\"UTF-8\"?><Response><Say>Please wait while we connect your call to the A. I. voice assistant.</Say><Pause length=\"1\" /><Say>O. K. you can start talking!</Say><Connect><Stream url=\"wss://"

/-- Everything in the generated document after the host value. -/
def postS : String :=
  "/media-stream\" /></Connect></Response>"

/-- Everything in the generated document before the stream-endpoint URL. -/
def preUrlS : String :=
  "<?xml version=\"1.0\" encoding=\"UTF-8\"?><Response><Say>Please wait while we connect your call to the A. I. voice assistant.</Say><Pause length=\"1\" /><Say>O. K. you can start talking!</Say><Connect><Stream url=\""

/-- Everything in the generated document after the stream-endpoint URL. -/
def postUrlS : String :=
  "\" /></Connect></Response>"

theorem string_data_append (a b : String) : (a ++ b).data = a.data ++ b.data := by
  cases a; cases b; rfl

/-- The generated document splits as fixed prefix, host, fixed suffix. -/
theorem twiml_decomp (host : String) :
    (twimlDocument host).data = preS.data ++ (host.data ++ postS.data) := by
  have hpre : preS =
      "<?xml version=\"1.0\" encoding=\"UTF-8\"?>" ++ "<Response>"
        ++ "<Say>Please wait while we connect your call to the A. I. voice assistant.</Say>"
        ++ "<Pause length=\"1\" />"
        ++ "<Say>O. K. you can start talking!</Say>"
        ++ "<Connect>" ++ "<Stream url=\"" ++ "wss://" := by rfl
  have hpost : postS = "/media-stream" ++ "\" />" ++ "</Connect>" ++ "</Response>" := by rfl
  rw [hpre, hpost]
  simp only [twimlDocument, streamEndpoint, string_data_append, List.append_assoc]

/-- The generated document splits as fixed prefix, the full stream URL, fixed
suffix. -/
theorem twiml_decomp_url (host : String) :
    (twimlDocument host).data =
      preUrlS.data ++ ((streamEndpoint host).data ++ postUrlS.data) := by
  have hpre : preUrlS =
      "<?xml version=\"1.0\" encoding=\"UTF-8\"?>" ++ "<Response>"
        ++ "<Say>Please wait while we connect your call to the A. I. voice assistant.</Say>"
        ++ "<Pause length=\"1\" />"
        ++ "<Say>O. K. you can start talking!</Say>"
        ++ "<Connect>" ++ "<Stream url=\"" := by rfl
  have hpost : postUrlS = "\" />" ++ "</Connect>" ++ "</Response>" := by rfl
  rw [hpre, hpost]
  simp only [twimlDocument, streamEndpoint, string_data_append, List.append_assoc]

/-- A string is an acceptable HTTP `Host` header value for our purposes when it
contains no `'<'` character (the `Host` grammar of RFC 9110 admits no angle
brackets). -/
def hostHeaderOk (h : String) : Bool :=
  h.data.all (fun c => !(c == '<'))

theorem hostHeaderOk_not_mem {h : String} (hh : hostHeaderOk h = true) :
    ('<' : Char) ∉ h.data := by
  intro hm
  have := List.all_eq_true.mp hh '<' hm
  simp at this

/-- Claim C1: every request to `/incoming-call` — any method, any body —
yields status 200 with `Content-Type: application/xml`; the responder is a
total function, so no input makes it fail. -/
theorem incoming_call_always_200_xml (req : Request) :
    (handle_incoming_call req).status = 200 ∧
      (handle_incoming_call req).contentType = "application/xml" :=
  ⟨rfl, rfl⟩

/-- Claim C2: the response body always contains the stream endpoint
`wss://<host>/media-stream` built verbatim from the request's `Host` header,
with the `wss://` scheme regardless of the inbound request's scheme. -/
theorem incoming_call_body_has_stream_url (req : Request) :
    containsSub ("wss://" ++ req.host ++ "/media-stream").data
      (handle_incoming_call req).body.data = true := by
  have hdoc : (handle_incoming_call req).body = twimlDocument req.host := rfl
  have hse : ("wss://" ++ req.host ++ "/media-stream") = streamEndpoint req.host := rfl
  rw [hdoc, hse]
  unfold containsSub
  rw [decide_eq_true_eq, twiml_decomp_url]
  apply countOcc_append_right_pos
  apply countOcc_self_append_pos
  have : (streamEndpoint req.host).data = 'w' :: ("ss://" ++ req.host ++ "/media-stream").data := by
    simp [streamEndpoint, string_data_append]
  simp [this]

/-- Claim C5: every generated document begins with the XML declaration — the
string `<?xml version="1.0"` is a prefix of the body. -/
theorem incoming_call_body_xml_decl (req : Request) :
    startsWithL "<?xml version=\"1.0\"".data (handle_incoming_call req).body.data = true := by
  have hdoc : (handle_incoming_call req).body = twimlDocument req.host := rfl
  rw [hdoc]
  have hd := twiml_decomp req.host
  rw [hd]
  apply startsWithL_append_left
  decide

/-- `p`'s first occurrence in `s` comes strictly before `q`'s first occurrence
(Python `s.find(p) < s.find(q)`, both found). -/
def firstBefore (p q s : List Char) : Prop :=
  ∃ i j, firstOcc p s = some i ∧ firstOcc q s = some j ∧ i < j

/-- Claim C3: in every generated document the first voice-prompt (`<Say>`)
precedes the pause, the pause precedes the second voice-prompt, the bridge
instruction (`<Connect>`) opens after the first voice-prompt's closing tag,
and the bridge instruction closes before the root closes. -/
theorem incoming_call_element_order (req : Request)
    (h : hostHeaderOk req.host = true) :
    firstBefore "<Say>".data "<Pause".data (handle_incoming_call req).body.data ∧
      (∃ i j, firstOcc "<Pause".data (handle_incoming_call req).body.data = some i ∧
        occAt "<Say>".data (handle_incoming_call req).body.data j = true ∧ i < j) ∧
      firstBefore "</Say>".data "<Connect>".data (handle_incoming_call req).body.data ∧
      firstBefore "</Connect>".data "</Response>".data (handle_incoming_call req).body.data := by
  have hlt := hostHeaderOk_not_mem h
  have hbody : (handle_incoming_call req).body = twimlDocument req.host := rfl
  rw [hbody, twiml_decomp]
  refine ⟨⟨48, 127, ?_, ?_, by omega⟩, ⟨127, 147, ?_, ?_, by omega⟩,
    ⟨121, 186, ?_, ?_, by omega⟩, ?_⟩
  · exact firstOcc_append_some _ _ (by decide) (by decide)
  · exact firstOcc_append_some _ _ (by decide) (by decide)
  · exact firstOcc_append_some _ _ (by decide) (by decide)
  · exact occAt_append_left _ (by decide)
  · exact firstOcc_append_some _ _ (by decide) (by decide)
  · exact firstOcc_append_some _ _ (by decide) (by decide)
  · refine ⟨17 + req.host.data.length + preS.data.length,
      27 + req.host.data.length + preS.data.length, ?_, ?_, by omega⟩
    · rw [firstOcc_append_none _ _ (by decide) (by decide),
        firstOcc_ltfree (by decide) req.host.data postS.data hlt,
        (by decide : firstOcc "</Connect>".data postS.data = some 17)]
      rfl
    · rw [firstOcc_append_none _ _ (by decide) (by decide),
        firstOcc_ltfree (by decide) req.host.data postS.data hlt,
        (by decide : firstOcc "</Response>".data postS.data = some 27)]
      rfl

/-- Witness for C3, at the test client's default host `testserver`. -/
theorem incoming_call_element_order_witness :
    hostHeaderOk "testserver" = true ∧
      (firstBefore "<Say>".data "<Pause".data
          (handle_incoming_call ⟨Method.GET, "http", "testserver", ReqBody.absent⟩).body.data ∧
        (∃ i j, firstOcc "<Pause".data
            (handle_incoming_call ⟨Method.GET, "http", "testserver", ReqBody.absent⟩).body.data
              = some i ∧
          occAt "<Say>".data
            (handle_incoming_call ⟨Method.GET, "http", "testserver", ReqBody.absent⟩).body.data
              j = true ∧ i < j) ∧
        firstBefore "</Say>".data "<Connect>".data
          (handle_incoming_call ⟨Method.GET, "http", "testserver", ReqBody.absent⟩).body.data ∧
        firstBefore "</Connect>".data "</Response>".data
          (handle_incoming_call ⟨Method.GET, "http", "testserver", ReqBody.absent⟩).body.data) :=
  ⟨by decide,
    incoming_call_element_order ⟨Method.GET, "http", "testserver", ReqBody.absent⟩ (by decide)⟩

/-- Claim C4: every generated document has exactly one `<Response>`/`</Response>`
pair, exactly one `<Connect>`/`</Connect>` pair, exactly one `<Stream` element,
at least two `<Say>` elements and exactly one `<Pause` element. -/
theorem incoming_call_element_counts (req : Request)
    (h : hostHeaderOk req.host = true) :
    countOcc "<Response>".data (handle_incoming_call req).body.data = 1 ∧
      countOcc "</Response>".data (handle_incoming_call req).body.data = 1 ∧
      countOcc "<Connect>".data (handle_incoming_call req).body.data = 1 ∧
      countOcc "</Connect>".data (handle_incoming_call req).body.data = 1 ∧
      countOcc "<Stream".data (handle_incoming_call req).body.data = 1 ∧
      2 ≤ countOcc "<Say>".data (handle_incoming_call req).body.data ∧
      countOcc "<Pause".data (handle_incoming_call req).body.data = 1 := by
  have hlt := hostHeaderOk_not_mem h
  have hbody : (handle_incoming_call req).body = twimlDocument req.host := rfl
  rw [hbody, twiml_decomp]
  refine ⟨?_, ?_, ?_, ?_, ?_, ?_, ?_⟩
  all_goals rw [countOcc_append _ _ (by decide),
    countOcc_ltfree (by decide) req.host.data postS.data hlt]
  all_goals decide

/-- Witness for C4, at the test client's default host `testserver`. -/
theorem incoming_call_element_counts_witness :
    hostHeaderOk "testserver" = true ∧
      (countOcc "<Response>".data
          (handle_incoming_call ⟨Method.GET, "http", "testserver", ReqBody.absent⟩).body.data = 1 ∧
        countOcc "</Response>".data
          (handle_incoming_call ⟨Method.GET, "http", "testserver", ReqBody.absent⟩).body.data = 1 ∧
        countOcc "<Connect>".data
          (handle_incoming_call ⟨Method.GET, "http", "testserver", ReqBody.absent⟩).body.data = 1 ∧
        countOcc "</Connect>".data
          (handle_incoming_call ⟨Method.GET, "http", "testserver", ReqBody.absent⟩).body.data = 1 ∧
        countOcc "<Stream".data
          (handle_incoming_call ⟨Method.GET, "http", "testserver", ReqBody.absent⟩).body.data = 1 ∧
        2 ≤ countOcc "<Say>".data
          (handle_incoming_call ⟨Method.GET, "http", "testserver", ReqBody.absent⟩).body.data ∧
        countOcc "<Pause".data
          (handle_incoming_call ⟨Method.GET, "http", "testserver", ReqBody.absent⟩).body.data = 1) :=
  ⟨by decide,
    incoming_call_element_counts ⟨Method.GET, "http", "testserver", ReqBody.absent⟩ (by decide)⟩

/-- Claim C8: in every generated document there is an occurrence of `<Say>` at a
position strictly greater than the position of `<Pause` — the second
voice-prompt element comes after the pause element. -/
theorem incoming_call_second_say_after_pause (req : Request) :
    ∃ i j, firstOcc "<Pause".data (handle_incoming_call req).body.data = some i ∧
      occAt "<Say>".data (handle_incoming_call req).body.data j = true ∧ i < j := by
  have hbody : (handle_incoming_call req).body = twimlDocument req.host := rfl
  rw [hbody, twiml_decomp]
  exact ⟨127, 147, firstOcc_append_some _ _ (by decide) (by decide),
    occAt_append_left _ (by decide), by omega⟩

/-! ## The outbound-call helper (`call_outgoing.py`)

The script is embedded as a trace semantics: every log statement, sleep,
process operation and call request of the source becomes an `Event`, and the
Python exception flow (`try`/`except json.JSONDecodeError`/`except Exception`,
`try`/`except KeyboardInterrupt`/`finally`) is made explicit.  The external
collaborators — `make_outgoing_call` from `main.py` and `json.loads` — are
parameters: `CallResult` is what awaiting `make_outgoing_call` does (returns a
response with a status code and decoded body, or raises), and `parseJson`
is `json.loads` (a parsed object with the three fields the script reads, or a
`JSONDecodeError` message). -/

/-- The fields of the parsed JSON response that `initiate_outgoing_call`
reads via `.get`: `call_sid`, `detail`, `error`. -/
structure JsonObj where
  call_sid : Option String
  detail : Option String
  error : Option String

/-- Behaviour of `await make_outgoing_call(to_number=...)`: either a response
object carrying a status code and its (decoded) body, or a raised exception
with its message and traceback. -/
inductive CallResult
  | response (statusCode : Nat) (content : String)
  | raisesExc (msg : String) (trace : String)

/-- The Python exceptions relevant to the script's handlers.  `KeyboardInterrupt`
is not a subclass of `Exception`, so `except Exception` does not catch it. -/
inductive PyExn
  | jsonDecodeError (msg : String)
  | otherExn (msg : String) (trace : String)
  | keyboardInterrupt
  | nameError (var : String)

/-- One observable step of `call_outgoing.py`: each constructor corresponds to
one log/side-effect statement of the source. -/
inductive Event
  | logWaiting
  | sleepSeconds (n : Nat)
  | logAttempting (target : String)
  | callRequest (toNumber : String)
  | logRawResponse (content : String)
  | logSuccess (callSid : String)
  | logCallFailed (status : Nat) (detail : String) (errMsg : String)
  | logDecodeFailed (excMsg : String)
  | logResponseContentWas (content : String)
  | logUnexpected (excMsg : String)
  | logTraceback (trace : String)
  | logUsage
  | startServer
  | logReady
  | loopSleep (n : Nat)
  | logInterrupted
  | logTerminating
  | terminateServer
  | joinServer
  | logTerminated

/-- Python `o.get(key, default)` on the parsed JSON object. -/
def pyGet (o : Option String) (d : String) : String := o.getD d

/-- The `try:` block of `initiate_outgoing_call`: issue the call, log the raw
body, parse it, branch on the status code.  Returns the events emitted and, if
an exception escapes the block, that exception together with the binding state
of the local variable `response_content` at the moment it was raised (the
generic handler needs no binding; the decode handler logs the variable). -/
def attemptCall (parseJson : String → Except String JsonObj)
    (callResult : CallResult) (target : String) :
    List Event × Option (PyExn × Option String) :=
  match callResult with
  | CallResult.raisesExc m tr =>
      ([Event.callRequest target], some (PyExn.otherExn m tr, none))
  | CallResult.response st content =>
      match parseJson content with
      | Except.error m =>
          ([Event.callRequest target, Event.logRawResponse content],
            some (PyExn.jsonDecodeError m, some content))
      | Except.ok j =>
          if st = 200 then
            ([Event.callRequest target, Event.logRawResponse content,
              Event.logSuccess (pyGet j.call_sid "None")], none)
          else
            ([Event.callRequest target, Event.logRawResponse content,
              Event.logCallFailed st (pyGet j.detail "N/A") (pyGet j.error "N/A")], none)

/-- `initiate_outgoing_call` from `call_outgoing.py`: wait five seconds, run
the `try:` block, and handle `json.JSONDecodeError` (log the decode failure and
the raw `response_content` — a `NameError` would escape if the variable were
unbound) and `Exception` (log the message and the full traceback).  Any other
escaping exception propagates. -/
def initiate_outgoing_call (parseJson : String → Except String JsonObj)
    (callResult : CallResult) (target : String) : List Event × Option PyExn :=
  let pre := [Event.logWaiting, Event.sleepSeconds 5, Event.logAttempting target]
  match attemptCall parseJson callResult target with
  | (evs, none) => (pre ++ evs, none)
  | (evs, some (PyExn.jsonDecodeError m, some content)) =>
      (pre ++ evs ++ [Event.logDecodeFailed m, Event.logResponseContentWas content], none)
  | (evs, some (PyExn.jsonDecodeError m, none)) =>
      (pre ++ evs ++ [Event.logDecodeFailed m], some (PyExn.nameError "response_content"))
  | (evs, some (PyExn.otherExn m tr, _)) =>
      (pre ++ evs ++ [Event.logUnexpected m, Event.logTraceback tr], none)
  | (evs, some (e, _)) => (pre ++ evs, some e)

/-- The `try ... except KeyboardInterrupt ... finally ...` structure of
`main_async`: a `KeyboardInterrupt` from the body is caught and logged, any
other exception propagates, and in every case the `finally:` block terminates
and joins the server process if it is still alive. -/
def try_finally (bodyEvs : List Event) (bodyRes : Option PyExn) (alive : Bool) :
    List Event × Option PyExn :=
  let handled :=
    match bodyRes with
    | some PyExn.keyboardInterrupt =>
        (bodyEvs ++ [Event.logInterrupted], (none : Option PyExn))
    | r => (bodyEvs, r)
  let finEvs :=
    if alive then
      [Event.logTerminating, Event.terminateServer, Event.joinServer, Event.logTerminated]
    else []
  (handled.1 ++ finEvs, handled.2)

/-- `main_async` from `call_outgoing.py`: run `initiate_outgoing_call`, log the
ready message, then sleep in a loop until a `KeyboardInterrupt` arrives
(`loopIterations` models when the user interrupts); `alive` is whether the
spawned server process is still alive when the `finally:` block runs. -/
def main_async (parseJson : String → Except String JsonObj)
    (callResult : CallResult) (target : String)
    (loopIterations : Nat) (alive : Bool) : List Event × Option PyExn :=
  match initiate_outgoing_call parseJson callResult target with
  | (initEvs, some e) => try_finally initEvs (some e) alive
  | (initEvs, none) =>
      try_finally
        (initEvs ++ [Event.logReady] ++ List.replicate loopIterations (Event.loopSleep 1))
        (some PyExn.keyboardInterrupt) alive

/-- The `if __name__ == "__main__":` block: with anything but exactly two argv
entries (program name plus one phone number) log the usage message and exit
with code 1; otherwise start the server process and run `main_async`.
Returns (trace, explicit exit code, escaping exception). -/
def run_script (argv : List String) (parseJson : String → Except String JsonObj)
    (callResult : CallResult) (loopIterations : Nat) (alive : Bool) :
    List Event × Option Nat × Option PyExn :=
  match argv with
  | [_, num] =>
      match main_async parseJson callResult num loopIterations alive with
      | (evs, exn) => (Event.startServer :: evs, none, exn)
  | _ => ([Event.logUsage], some 1, none)

/-- Number of outbound-call requests in a trace. -/
def countCallRequests : List Event → Nat
  | [] => 0
  | Event.callRequest _ :: rest => 1 + countCallRequests rest
  | _ :: rest => countCallRequests rest

/-- Is this event one of the four outcome logs of the call-initiation step? -/
def isOutcomeLog : Event → Bool
  | Event.logSuccess _ => true
  | Event.logCallFailed _ _ _ => true
  | Event.logDecodeFailed _ => true
  | Event.logUnexpected _ => true
  | _ => false

theorem countCallRequests_append (a b : List Event) :
    countCallRequests (a ++ b) = countCallRequests a + countCallRequests b := by
  induction a with
  | nil => simp [countCallRequests]
  | cons e rest ih =>
      cases e <;> simp [countCallRequests, ih, Nat.add_assoc]

theorem countCallRequests_replicate (n : Nat) :
    countCallRequests (List.replicate n (Event.loopSleep 1)) = 0 := by
  induction n with
  | zero => rfl
  | succ k ih => simpa [List.replicate, countCallRequests] using ih

/-- Shape of the `initiate_outgoing_call` trace: the fixed wait/sleep/attempt
prefix, then exactly one call request, then a tail that issues no further call
request, logs the outcome, and raises nothing. -/
theorem initiate_shape (parseJson : String → Except String JsonObj)
    (callResult : CallResult) (target : String) :
    ∃ tail,
      (initiate_outgoing_call parseJson callResult target).1 =
        Event.logWaiting :: Event.sleepSeconds 5 :: Event.logAttempting target ::
          Event.callRequest target :: tail ∧
      countCallRequests tail = 0 ∧
      tail.any isOutcomeLog = true ∧
      (initiate_outgoing_call parseJson callResult target).2 = none := by
  cases callResult with
  | raisesExc m tr =>
      exact ⟨[Event.logUnexpected m, Event.logTraceback tr], rfl, rfl, rfl, rfl⟩
  | response st content =>
      cases hp : parseJson content with
      | error m =>
          refine ⟨[Event.logRawResponse content, Event.logDecodeFailed m,
            Event.logResponseContentWas content], ?_, rfl, rfl, ?_⟩ <;>
            simp [initiate_outgoing_call, attemptCall, hp]
      | ok j =>
          by_cases hst : st = 200
          · subst hst
            refine ⟨[Event.logRawResponse content,
              Event.logSuccess (pyGet j.call_sid "None")], ?_, rfl, rfl, ?_⟩ <;>
              simp [initiate_outgoing_call, attemptCall, hp]
          · refine ⟨[Event.logRawResponse content,
              Event.logCallFailed st (pyGet j.detail "N/A") (pyGet j.error "N/A")],
              ?_, rfl, rfl, ?_⟩ <;>
              simp [initiate_outgoing_call, attemptCall, hp, hst]

/-- The `finally:` suffix appended by `try_finally` when the server process is
still alive. -/
theorem try_finally_ends (bodyEvs : List Event) (bodyRes : Option PyExn) :
    ∃ evs0, (try_finally bodyEvs bodyRes true).1 =
      evs0 ++ [Event.logTerminating, Event.terminateServer, Event.joinServer,
        Event.logTerminated] := by
  rcases bodyRes with _ | e
  · exact ⟨bodyEvs, rfl⟩
  · cases e with
    | keyboardInterrupt => exact ⟨bodyEvs ++ [Event.logInterrupted], rfl⟩
    | jsonDecodeError m => exact ⟨bodyEvs, rfl⟩
    | otherExn m tr => exact ⟨bodyEvs, rfl⟩
    | nameError v => exact ⟨bodyEvs, rfl⟩

/-- Claim C7: the call-initiation step distinguishes exactly the failure
outcomes JSON-decode failure (logged with the raw body included), non-200
status (logged with status, detail and error fields) and any other exception
(logged with its full traceback) — plus success — and none of them lets an
exception propagate out of the helper. -/
theorem initiate_call_outcomes (parseJson : String → Except String JsonObj)
    (callResult : CallResult) (target : String) :
    (initiate_outgoing_call parseJson callResult target).2 = none ∧
      ((∃ m tr, callResult = CallResult.raisesExc m tr ∧
          (initiate_outgoing_call parseJson callResult target).1 =
            [Event.logWaiting, Event.sleepSeconds 5, Event.logAttempting target,
              Event.callRequest target, Event.logUnexpected m, Event.logTraceback tr]) ∨
        (∃ st content m, callResult = CallResult.response st content ∧
          parseJson content = Except.error m ∧
          (initiate_outgoing_call parseJson callResult target).1 =
            [Event.logWaiting, Event.sleepSeconds 5, Event.logAttempting target,
              Event.callRequest target, Event.logRawResponse content,
              Event.logDecodeFailed m, Event.logResponseContentWas content]) ∨
        (∃ st content j, callResult = CallResult.response st content ∧
          parseJson content = Except.ok j ∧ st ≠ 200 ∧
          (initiate_outgoing_call parseJson callResult target).1 =
            [Event.logWaiting, Event.sleepSeconds 5, Event.logAttempting target,
              Event.callRequest target, Event.logRawResponse content,
              Event.logCallFailed st (pyGet j.detail "N/A") (pyGet j.error "N/A")]) ∨
        (∃ content j, callResult = CallResult.response 200 content ∧
          parseJson content = Except.ok j ∧
          (initiate_outgoing_call parseJson callResult target).1 =
            [Event.logWaiting, Event.sleepSeconds 5, Event.logAttempting target,
              Event.callRequest target, Event.logRawResponse content,
              Event.logSuccess (pyGet j.call_sid "None")])) := by
  cases callResult with
  | raisesExc m tr => exact ⟨rfl, Or.inl ⟨m, tr, rfl, rfl⟩⟩
  | response st content =>
      cases hp : parseJson content with
      | error m =>
          refine ⟨?_, Or.inr (Or.inl ⟨st, content, m, rfl, hp, ?_⟩)⟩ <;>
            simp [initiate_outgoing_call, attemptCall, hp]
      | ok j =>
          by_cases hst : st = 200
          · subst hst
            refine ⟨?_, Or.inr (Or.inr (Or.inr ⟨content, j, rfl, hp, ?_⟩))⟩ <;>
              simp [initiate_outgoing_call, attemptCall, hp]
          · refine ⟨?_, Or.inr (Or.inr (Or.inl ⟨st, content, j, rfl, hp, hst, ?_⟩))⟩ <;>
              simp [initiate_outgoing_call, attemptCall, hp, hst]

/-- Claim C9: the non-200 logging branch runs only after the response body has
parsed as JSON; a body that fails to parse is always reported through the
decode-failure path, which logs the raw `response_content` — bound, since
decoding precedes parsing — whatever the status code, and raises nothing. -/
theorem nonok_branch_after_parse (parseJson : String → Except String JsonObj)
    (target : String) :
    (∀ st content m, parseJson content = Except.error m →
      (initiate_outgoing_call parseJson (CallResult.response st content) target).1 =
        [Event.logWaiting, Event.sleepSeconds 5, Event.logAttempting target,
          Event.callRequest target, Event.logRawResponse content,
          Event.logDecodeFailed m, Event.logResponseContentWas content] ∧
        (initiate_outgoing_call parseJson (CallResult.response st content) target).2 = none) ∧
    (∀ callResult st d e,
      Event.logCallFailed st d e ∈ (initiate_outgoing_call parseJson callResult target).1 →
      ∃ content j, callResult = CallResult.response st content ∧
        parseJson content = Except.ok j ∧ st ≠ 200 ∧
        d = pyGet j.detail "N/A" ∧ e = pyGet j.error "N/A") := by
  constructor
  · intro st content m hp
    constructor <;> simp [initiate_outgoing_call, attemptCall, hp]
  · intro callResult st d e hmem
    cases callResult with
    | raisesExc m tr =>
        simp [initiate_outgoing_call, attemptCall] at hmem
    | response st' content =>
        cases hp : parseJson content with
        | error m =>
            simp [initiate_outgoing_call, attemptCall, hp] at hmem
        | ok j =>
            by_cases hst' : st' = 200
            · subst hst'
              simp [initiate_outgoing_call, attemptCall, hp] at hmem
            · simp [initiate_outgoing_call, attemptCall, hp, hst'] at hmem
              obtain ⟨h1, h2, h3⟩ := hmem
              subst h1
              exact ⟨content, j, rfl, hp, hst', h2, h3⟩

/-- Witness for C9: a 500 response whose body is not JSON goes through the
decode-failure path with the raw body logged. -/
theorem nonok_branch_after_parse_witness :
    ((fun _ : String => (Except.error "bad json" : Except String JsonObj)) "oops"
        = Except.error "bad json") ∧
      ((initiate_outgoing_call (fun _ => Except.error "bad json")
          (CallResult.response 500 "oops") "+15551234").1 =
        [Event.logWaiting, Event.sleepSeconds 5, Event.logAttempting "+15551234",
          Event.callRequest "+15551234", Event.logRawResponse "oops",
          Event.logDecodeFailed "bad json", Event.logResponseContentWas "oops"] ∧
      (initiate_outgoing_call (fun _ => Except.error "bad json")
          (CallResult.response 500 "oops") "+15551234").2 = none) :=
  ⟨rfl, (nonok_branch_after_parse (fun _ => Except.error "bad json") "+15551234").1
    500 "oops" "bad json" rfl⟩

/-- Claim C6: the outbound helper CLI — invoked without exactly one
phone-number argument it logs a usage message and exits with code 1; invoked
with one argument it starts the server, waits 5 seconds, issues exactly one
outbound-call request, logs the outcome, blocks until interrupted, and
terminates the still-alive server process on exit. -/
theorem run_script_cli_contract (argv : List String)
    (parseJson : String → Except String JsonObj) (callResult : CallResult)
    (loopIterations : Nat) (alive : Bool) :
    (argv.length ≠ 2 →
      run_script argv parseJson callResult loopIterations alive =
        ([Event.logUsage], some 1, none)) ∧
    (∀ prog num, argv = [prog, num] →
      ∃ rest,
        (run_script argv parseJson callResult loopIterations alive).1 =
          Event.startServer :: Event.logWaiting :: Event.sleepSeconds 5 ::
            Event.logAttempting num :: Event.callRequest num :: rest ∧
        countCallRequests
          (run_script argv parseJson callResult loopIterations alive).1 = 1 ∧
        ((run_script argv parseJson callResult loopIterations alive).1.any
          isOutcomeLog) = true ∧
        Event.logInterrupted ∈
          (run_script argv parseJson callResult loopIterations alive).1 ∧
        (run_script argv parseJson callResult loopIterations alive).2.1 = none ∧
        (alive = true →
          ∃ evs0, (run_script argv parseJson callResult loopIterations alive).1 =
            evs0 ++ [Event.logTerminating, Event.terminateServer, Event.joinServer,
              Event.logTerminated])) := by
  constructor
  · intro hlen
    rcases argv with _ | ⟨a, _ | ⟨b, _ | ⟨c, t⟩⟩⟩
    · rfl
    · rfl
    · exact absurd rfl hlen
    · rfl
  · intro prog num heq
    subst heq
    obtain ⟨tail, hshape, hcount, hout, hexn⟩ := initiate_shape parseJson callResult num
    rcases hinit : initiate_outgoing_call parseJson callResult num with ⟨initEvs, exn⟩
    rw [hinit] at hshape hexn
    have hshape2 : initEvs =
        Event.logWaiting :: Event.sleepSeconds 5 :: Event.logAttempting num ::
          Event.callRequest num :: tail := hshape
    have hexn2 : exn = none := hexn
    subst hexn2
    have htr : (run_script [prog, num] parseJson callResult loopIterations alive).1
        = Event.startServer :: Event.logWaiting :: Event.sleepSeconds 5 ::
          Event.logAttempting num :: Event.callRequest num ::
          (tail ++ [Event.logReady]
            ++ List.replicate loopIterations (Event.loopSleep 1)
            ++ [Event.logInterrupted]
            ++ (if alive then [Event.logTerminating, Event.terminateServer,
                Event.joinServer, Event.logTerminated] else [])) := by
      simp [run_script, main_async, hinit, try_finally, hshape2, List.append_assoc]
    have hfin : countCallRequests (if alive then [Event.logTerminating,
        Event.terminateServer, Event.joinServer, Event.logTerminated] else []) = 0 := by
      cases alive <;> rfl
    refine ⟨tail ++ [Event.logReady]
      ++ List.replicate loopIterations (Event.loopSleep 1)
      ++ [Event.logInterrupted]
      ++ (if alive then [Event.logTerminating, Event.terminateServer,
          Event.joinServer, Event.logTerminated] else []), htr, ?_, ?_, ?_, ?_, ?_⟩
    · rw [htr]
      simp [countCallRequests, countCallRequests_append, countCallRequests_replicate,
        hcount, hfin]
    · rw [htr]
      simp [List.any_append, isOutcomeLog, hout]
    · rw [htr]
      simp
    · simp [run_script, main_async, hinit, try_finally]
    · intro ha
      subst ha
      refine ⟨Event.startServer :: Event.logWaiting :: Event.sleepSeconds 5 ::
        Event.logAttempting num :: Event.callRequest num ::
        (tail ++ [Event.logReady]
          ++ List.replicate loopIterations (Event.loopSleep 1)
          ++ [Event.logInterrupted]), ?_⟩
      rw [htr]
      simp [List.append_assoc]

/-- Witness for C6: a missing argument exits with code 1, and a call with one
argument produces the full trace shape. -/
theorem run_script_cli_contract_witness :
    (run_script ["call_outgoing.py"] (fun _ => Except.error "bad json")
        (CallResult.response 200 "ok") 1 true = ([Event.logUsage], some 1, none)) ∧
      (∃ rest,
        (run_script ["call_outgoing.py", "+15551234"] (fun _ => Except.error "bad json")
            (CallResult.response 200 "ok") 1 true).1 =
          Event.startServer :: Event.logWaiting :: Event.sleepSeconds 5 ::
            Event.logAttempting "+15551234" :: Event.callRequest "+15551234" :: rest ∧
        countCallRequests
          (run_script ["call_outgoing.py", "+15551234"] (fun _ => Except.error "bad json")
            (CallResult.response 200 "ok") 1 true).1 = 1 ∧
        ((run_script ["call_outgoing.py", "+15551234"] (fun _ => Except.error "bad json")
            (CallResult.response 200 "ok") 1 true).1.any isOutcomeLog) = true ∧
        Event.logInterrupted ∈
          (run_script ["call_outgoing.py", "+15551234"] (fun _ => Except.error "bad json")
            (CallResult.response 200 "ok") 1 true).1 ∧
        (run_script ["call_outgoing.py", "+15551234"] (fun _ => Except.error "bad json")
            (CallResult.response 200 "ok") 1 true).2.1 = none ∧
        (true = true →
          ∃ evs0,
            (run_script ["call_outgoing.py", "+15551234"] (fun _ => Except.error "bad json")
              (CallResult.response 200 "ok") 1 true).1 =
            evs0 ++ [Event.logTerminating, Event.terminateServer, Event.joinServer,
              Event.logTerminated])) :=
  ⟨(run_script_cli_contract ["call_outgoing.py"] (fun _ => Except.error "bad json")
      (CallResult.response 200 "ok") 1 true).1 (by decide),
    (run_script_cli_contract ["call_outgoing.py", "+15551234"]
      (fun _ => Except.error "bad json") (CallResult.response 200 "ok") 1 true).2
      "call_outgoing.py" "+15551234" rfl⟩

/-- Claim C10: on every exit path of `main_async` — the body completing, a
`KeyboardInterrupt`, or any other exception — a still-alive server process is
terminated and joined before the routine returns: the `finally:` suffix closes
every trace. -/
theorem server_terminated_on_exit :
    (∀ bodyEvs bodyRes alive, alive = true →
      ∃ evs0, (try_finally bodyEvs bodyRes alive).1 =
        evs0 ++ [Event.logTerminating, Event.terminateServer, Event.joinServer,
          Event.logTerminated]) ∧
    (∀ parseJson callResult target loopIterations alive, alive = true →
      ∃ evs0, (main_async parseJson callResult target loopIterations alive).1 =
        evs0 ++ [Event.logTerminating, Event.terminateServer, Event.joinServer,
          Event.logTerminated]) := by
  constructor
  · intro bodyEvs bodyRes alive ha
    subst ha
    exact try_finally_ends bodyEvs bodyRes
  · intro parseJson callResult target loopIterations alive ha
    subst ha
    rcases hinit : initiate_outgoing_call parseJson callResult target with ⟨initEvs, exn⟩
    cases exn with
    | none =>
        simp only [main_async, hinit]
        exact try_finally_ends _ _
    | some e =>
        simp only [main_async, hinit]
        exact try_finally_ends _ _

/-- Witness for C10 at a concrete body trace with the process alive. -/
theorem server_terminated_on_exit_witness :
    (true = true) ∧
      ∃ evs0, (try_finally [Event.logReady] (some PyExn.keyboardInterrupt) true).1 =
        evs0 ++ [Event.logTerminating, Event.terminateServer, Event.joinServer,
          Event.logTerminated] :=
  ⟨rfl, server_terminated_on_exit.1 [Event.logReady] (some PyExn.keyboardInterrupt) true rfl⟩

end SpeechAssistant
